import Mathlib

/-!
Verification of the cache-and-compute core of `src/nlp/nlp.py`.

The Python module keeps two process-wide globals `nlp` (full analysis
engine) and `nlp_small` (tokenization engine), a cache flag `CACHE`
computed from the `NLP_CACHE` environment variable, and a lazy-load flag
from `NLP_LAZY`.  At import time it creates the cache directory when
caching is enabled, then either calls `load_model()` eagerly or leaves
both globals at `None`.  `analyze`/`tokenize` load on demand and dispatch
on `isinstance(docs, str)` between a single-text engine call and the
engine's batch path.

The embedding below models the module state explicitly; the spaCy
engines are abstract functions from text to documents.  Two
instrumentation counters (`loadCount`, `ncalls`) record how often
`load_model` and the full engine are invoked, so that the temporal
claims about load timing and per-call engine invocations are statable.
-/

namespace Omoide

/-- A spaCy token as consumed by `postprocess`: surface text
(`token.text`), coarse POS tag (`token.pos_`), lemma (`token.lemma_`),
and `token.head.i`, the 0-based position of its syntactic head inside
the same document. -/
structure Token where
  text : String
  pos_ : String
  lemma_ : String
  head_i : Nat
deriving DecidableEq

/-- A spaCy `Doc`: an ordered sequence of tokens. -/
abbrev Doc := List Token

/-- spaCy invariant on a document: every token's head is a token of the
same document, so its index is below the document length. -/
def Doc.WF (d : Doc) : Prop := ∀ t ∈ d, t.head_i < d.length

instance (d : Doc) : Decidable d.WF := by
  unfold Doc.WF; infer_instance

/-- An underlying spaCy pipeline (the result of `spacy.load`): a
callable mapping one text to a document (`nlp(text)`) and a batch path
(`nlp.pipe(texts)`). -/
structure Engine where
  proc : String → Doc
  pipeDocs : List String → List Doc

/-- Engine well-formedness: every document it produces satisfies the
spaCy head-index invariant. -/
def Engine.WF (e : Engine) : Prop :=
  (∀ t, (e.proc t).WF) ∧ (∀ ts, ∀ d ∈ e.pipeDocs ts, d.WF)

/-- The two environment variables the module reads. `none` models an
unset variable, `some s` a variable set to the string `s`. -/
structure Env where
  nlp_cache : Option String
  nlp_lazy : Option String

/-- Python truthiness of `os.environ.get(...)`: `None` and the empty
string are falsy, every other string (including "0" and "false") is
truthy. -/
def pybool : Option String → Bool
  | none => false
  | some s => !s.isEmpty

/-- `CACHE = bool(os.environ.get("NLP_CACHE"))`. -/
def CACHE (env : Env) : Bool := pybool env.nlp_cache

/-- The filesystem fragment relevant to the module: the set of existing
directories, by path. -/
abbrev FS := List String

/-- `Path(p).mkdir(exist_ok=ok)`: raises `FileExistsError` when the
directory already exists and `exist_ok` is false; otherwise ensures the
directory exists. -/
def mkdir (p : String) (exist_ok : Bool) (fs : FS) : Except String FS :=
  if p ∈ fs then
    if exist_ok then .ok fs else .error "FileExistsError"
  else .ok (p :: fs)

/-- The module-level mutable state of `nlp.py`: the two global engine
handles, the computed cache flag, the filesystem, plus instrumentation:
`loadCount` counts `load_model` invocations, `ncalls` invocations of the
full engine (`nlp(...)` or `nlp.pipe(...)`), `scalls` invocations of the
small engine. -/
structure St where
  nlp : Option Engine
  nlp_small : Option Engine
  cacheEnabled : Bool
  dirs : FS
  loadCount : Nat
  ncalls : Nat
  scalls : Nat

/-- `load_model()`: assigns both globals. `lg` and `sm` stand for the
results of `spacy.load('ja_core_news_lg')` and
`spacy.load('ja_core_news_sm')`. -/
def load_model (lg sm : Engine) (s : St) : St :=
  { s with nlp := some lg, nlp_small := some sm, loadCount := s.loadCount + 1 }

/-- Module import time: compute `CACHE`; if caching is enabled create
`.nlp_cache/` with `exist_ok=True`; then either load eagerly
(`NLP_LAZY` falsy) or leave both engine globals unset. -/
def startup (env : Env) (lg sm : Engine) (fs : FS) : Except String St :=
  let cache := CACHE env
  match (if cache then mkdir ".nlp_cache/" true fs else .ok fs) with
  | .error e => .error e
  | .ok fs2 =>
      let s0 : St :=
        { nlp := none, nlp_small := none, cacheEnabled := cache,
          dirs := fs2, loadCount := 0, ncalls := 0, scalls := 0 }
      if pybool env.nlp_lazy then .ok s0 else .ok (load_model lg sm s0)

/-- A Python argument that is either one string or a list of strings, as
discriminated by `isinstance(docs, str)`. -/
inductive PyInput where
  | str : String → PyInput
  | strs : List String → PyInput
deriving DecidableEq

/-- `postprocess`'s normalized result: `(words, pos_tags, lemmas, deps)`. -/
abbrev AnalysisResult := List String × List String × List String × List Nat

/-- `postprocess(doc)`: flatten a document into the four parallel
sequences; `deps` holds `token.head.i` for each token. -/
def postprocess (doc : Doc) : AnalysisResult :=
  (doc.map Token.text, doc.map Token.pos_, doc.map Token.lemma_,
   doc.map Token.head_i)

/-- Result of `analyze`: one `AnalysisResult` for a single string, a
list of them for a list of texts. -/
inductive AOut where
  | one : AnalysisResult → AOut
  | many : List AnalysisResult → AOut
deriving DecidableEq

/-- Result of `tokenize`: token texts, single or batched. -/
inductive TOut where
  | one : List String → TOut
  | many : List (List String) → TOut
deriving DecidableEq

/-- The `if nlp is None: load_model()` guard at the head of `analyze`. -/
def ensureNlp (lg sm : Engine) (s : St) : St :=
  if s.nlp.isNone then load_model lg sm s else s

/-- The `if nlp_small is None: load_model()` guard at the head of
`tokenize`. -/
def ensureSmall (lg sm : Engine) (s : St) : St :=
  if s.nlp_small.isNone then load_model lg sm s else s

/-- Record one invocation of the full engine. -/
def bumpN (s : St) : St := { s with ncalls := s.ncalls + 1 }

/-- Record one invocation of the small engine. -/
def bumpS (s : St) : St := { s with scalls := s.scalls + 1 }

/-- `analyze(docs)`: load on demand, then dispatch on
`isinstance(docs, str)` to the single (`nlp(docs)`) or batch
(`nlp.pipe(docs)`) engine path and normalize via `postprocess`.
Calling a still-unset engine would be a Python `TypeError`; the guard
makes this branch unreachable. -/
def analyze (lg sm : Engine) (docs : PyInput) (s : St) :
    Except String AOut × St :=
  match (ensureNlp lg sm s).nlp with
  | none => (.error "TypeError", ensureNlp lg sm s)
  | some eng =>
      match docs with
      | .str d =>
          (.ok (.one (postprocess (eng.proc d))), bumpN (ensureNlp lg sm s))
      | .strs ds =>
          (.ok (.many ((eng.pipeDocs ds).map postprocess)),
           bumpN (ensureNlp lg sm s))

/-- `tokenize(docs)`: load on demand, then return token texts via the
small engine, single or batched. -/
def tokenize (lg sm : Engine) (docs : PyInput) (s : St) :
    Except String TOut × St :=
  match (ensureSmall lg sm s).nlp_small with
  | none => (.error "TypeError", ensureSmall lg sm s)
  | some eng =>
      match docs with
      | .str d =>
          (.ok (.one ((eng.proc d).map Token.text)),
           bumpS (ensureSmall lg sm s))
      | .strs ds =>
          (.ok (.many ((eng.pipeDocs ds).map (fun doc => doc.map Token.text))),
           bumpS (ensureSmall lg sm s))

/-- One observable operation on the module. -/
inductive Op where
  | an : PyInput → Op
  | tok : PyInput → Op
deriving DecidableEq

/-- State after one operation. -/
def step (lg sm : Engine) (s : St) : Op → St
  | .an d => (analyze lg sm d s).2
  | .tok d => (tokenize lg sm d s).2

/-- State after a sequence of operations. -/
def run (lg sm : Engine) (ops : List Op) (s : St) : St :=
  ops.foldl (step lg sm) s

/-- Execute a sequence of `analyze` calls, collecting every observable
result in order. -/
def runAnalyzes (lg sm : Engine) (inputs : List PyInput) (s : St) :
    List (Except String AOut) × St :=
  match inputs with
  | [] => ([], s)
  | d :: ds =>
      let p := analyze lg sm d s
      let q := runAnalyzes lg sm ds p.2
      (p.1 :: q.1, q.2)

/-! ### Basic lemmas about the guards and the state transformers -/

theorem mkdir_exist_ok (p : String) (fs : FS) :
    mkdir p true fs = .ok (if p ∈ fs then fs else p :: fs) := by
  unfold mkdir; split <;> simp

theorem ensureNlp_nlp (lg sm : Engine) (s : St) :
    (ensureNlp lg sm s).nlp = some (s.nlp.getD lg) := by
  cases h : s.nlp <;> simp [ensureNlp, load_model, h]

theorem ensureSmall_nlp_small (lg sm : Engine) (s : St) :
    (ensureSmall lg sm s).nlp_small = some (s.nlp_small.getD sm) := by
  cases h : s.nlp_small <;> simp [ensureSmall, load_model, h]

theorem bumpN_nlp (s : St) : (bumpN s).nlp = s.nlp := rfl

theorem analyze_eq (lg sm : Engine) (docs : PyInput) (s : St) :
    analyze lg sm docs s =
      (.ok (match docs with
            | .str d => .one (postprocess ((s.nlp.getD lg).proc d))
            | .strs ds =>
                .many (((s.nlp.getD lg).pipeDocs ds).map postprocess)),
       bumpN (ensureNlp lg sm s)) := by
  unfold analyze
  rw [ensureNlp_nlp]
  cases docs <;> rfl

theorem tokenize_eq (lg sm : Engine) (docs : PyInput) (s : St) :
    tokenize lg sm docs s =
      (.ok (match docs with
            | .str d => .one (((s.nlp_small.getD sm).proc d).map Token.text)
            | .strs ds =>
                .many (((s.nlp_small.getD sm).pipeDocs ds).map
                  (fun doc => doc.map Token.text))),
       bumpS (ensureSmall lg sm s)) := by
  unfold tokenize
  rw [ensureSmall_nlp_small]
  cases docs <;> rfl

theorem analyze_snd (lg sm : Engine) (docs : PyInput) (s : St) :
    (analyze lg sm docs s).2 = bumpN (ensureNlp lg sm s) := by
  rw [analyze_eq]

theorem tokenize_snd (lg sm : Engine) (docs : PyInput) (s : St) :
    (tokenize lg sm docs s).2 = bumpS (ensureSmall lg sm s) := by
  rw [tokenize_eq]

theorem analyze_snd_nlp (lg sm : Engine) (docs : PyInput) (s : St) :
    ((analyze lg sm docs s).2).nlp = some (s.nlp.getD lg) := by
  rw [analyze_snd]; exact ensureNlp_nlp lg sm s

theorem analyze_snd_ncalls (lg sm : Engine) (docs : PyInput) (s : St) :
    ((analyze lg sm docs s).2).ncalls = s.ncalls + 1 := by
  rw [analyze_snd]
  cases h : s.nlp <;> simp [bumpN, ensureNlp, load_model, h]

theorem analyze_snd_dirs (lg sm : Engine) (docs : PyInput) (s : St) :
    ((analyze lg sm docs s).2).dirs = s.dirs := by
  rw [analyze_snd]
  cases h : s.nlp <;> simp [bumpN, ensureNlp, load_model, h]

theorem analyze_snd_cacheEnabled (lg sm : Engine) (docs : PyInput) (s : St) :
    ((analyze lg sm docs s).2).cacheEnabled = s.cacheEnabled := by
  rw [analyze_snd]
  cases h : s.nlp <;> simp [bumpN, ensureNlp, load_model, h]

theorem analyze_snd_loadCount (lg sm : Engine) (docs : PyInput) (s : St) :
    ((analyze lg sm docs s).2).loadCount =
      s.loadCount + (if s.nlp.isNone then 1 else 0) := by
  rw [analyze_snd]
  cases h : s.nlp <;> simp [bumpN, ensureNlp, load_model, h]

theorem analyze_snd_nlp_small (lg sm : Engine) (docs : PyInput) (s : St) :
    ((analyze lg sm docs s).2).nlp_small =
      if s.nlp.isNone then some sm else s.nlp_small := by
  rw [analyze_snd]
  cases h : s.nlp <;> simp [bumpN, ensureNlp, load_model, h]

theorem tokenize_snd_nlp_small (lg sm : Engine) (docs : PyInput) (s : St) :
    ((tokenize lg sm docs s).2).nlp_small = some (s.nlp_small.getD sm) := by
  rw [tokenize_snd]; exact ensureSmall_nlp_small lg sm s

theorem tokenize_snd_nlp (lg sm : Engine) (docs : PyInput) (s : St) :
    ((tokenize lg sm docs s).2).nlp =
      if s.nlp_small.isNone then some lg else s.nlp := by
  rw [tokenize_snd]
  cases h : s.nlp_small <;> simp [bumpS, ensureSmall, load_model, h]

theorem tokenize_snd_loadCount (lg sm : Engine) (docs : PyInput) (s : St) :
    ((tokenize lg sm docs s).2).loadCount =
      s.loadCount + (if s.nlp_small.isNone then 1 else 0) := by
  rw [tokenize_snd]
  cases h : s.nlp_small <;> simp [bumpS, ensureSmall, load_model, h]

theorem analyze_fst_nlp_only (lg sm : Engine) (docs : PyInput) {s t : St}
    (h : s.nlp = t.nlp) :
    (analyze lg sm docs s).1 = (analyze lg sm docs t).1 := by
  rw [analyze_eq, analyze_eq, h]

theorem runAnalyzes_cons (lg sm : Engine) (d : PyInput) (ds : List PyInput)
    (s : St) :
    runAnalyzes lg sm (d :: ds) s =
      ((analyze lg sm d s).1 ::
         (runAnalyzes lg sm ds (analyze lg sm d s).2).1,
       (runAnalyzes lg sm ds (analyze lg sm d s).2).2) := rfl

theorem runAnalyzes_nlp_only (lg sm : Engine) (inputs : List PyInput) :
    ∀ s t : St, s.nlp = t.nlp →
      (runAnalyzes lg sm inputs s).1 = (runAnalyzes lg sm inputs t).1 := by
  induction inputs with
  | nil => intro s t _; rfl
  | cons d ds ih =>
      intro s t h
      have h2 : ((analyze lg sm d s).2).nlp = ((analyze lg sm d t).2).nlp := by
        rw [analyze_snd_nlp lg sm d s, analyze_snd_nlp lg sm d t, h]
      rw [runAnalyzes_cons, runAnalyzes_cons]
      show _ :: _ = _ :: _
      rw [analyze_fst_nlp_only lg sm d h,
          ih (analyze lg sm d s).2 (analyze lg sm d t).2 h2]

/-- The filesystem after module import. -/
def startupDirs (env : Env) (fs : FS) : FS :=
  if CACHE env then
    (if ".nlp_cache/" ∈ fs then fs else ".nlp_cache/" :: fs)
  else fs

theorem startup_eq (env : Env) (lg sm : Engine) (fs : FS) :
    startup env lg sm fs =
      .ok (if pybool env.nlp_lazy then
             ⟨none, none, CACHE env, startupDirs env fs, 0, 0, 0⟩
           else
             ⟨some lg, some sm, CACHE env, startupDirs env fs, 1, 0, 0⟩) := by
  unfold startup startupDirs
  by_cases hc : CACHE env = true <;>
    by_cases hl : pybool env.nlp_lazy = true <;>
      simp [hc, hl, mkdir_exist_ok, load_model]

theorem startup_nlp (env : Env) (lg sm : Engine) (fs : FS) (s0 : St)
    (h : startup env lg sm fs = .ok s0) :
    s0.nlp = if pybool env.nlp_lazy then none else some lg := by
  rw [startup_eq] at h
  injection h with h
  subst h
  by_cases hl : pybool env.nlp_lazy = true <;> simp [hl]

theorem startup_fields (env : Env) (lg sm : Engine) (fs : FS) (s0 : St)
    (h : startup env lg sm fs = .ok s0) :
    s0.nlp = (if pybool env.nlp_lazy then none else some lg) ∧
    s0.nlp_small = (if pybool env.nlp_lazy then none else some sm) ∧
    s0.cacheEnabled = CACHE env ∧
    s0.dirs = startupDirs env fs ∧
    s0.loadCount = (if pybool env.nlp_lazy then 0 else 1) ∧
    s0.ncalls = 0 ∧ s0.scalls = 0 := by
  rw [startup_eq] at h
  injection h with h
  subst h
  by_cases hl : pybool env.nlp_lazy = true <;> simp [hl]

/-! ### C1: the cache flag never changes `analyze` results -/

/-- C1: enabling the disk cache never changes the observable results of
`analyze`.  Starting from module import with any values of `NLP_CACHE`
and any pre-existing filesystems, but the same `NLP_LAZY` setting, every
call in an arbitrary sequence of `analyze` calls (first call and all
subsequent ones) returns the same value with the cache enabled as with
it disabled. -/
theorem analyze_cache_irrelevant (env1 env2 : Env) (lg sm : Engine)
    (fs1 fs2 : FS) (inputs : List PyInput) (s1 s2 : St)
    (hlazy : env1.nlp_lazy = env2.nlp_lazy)
    (h1 : startup env1 lg sm fs1 = .ok s1)
    (h2 : startup env2 lg sm fs2 = .ok s2) :
    (runAnalyzes lg sm inputs s1).1 = (runAnalyzes lg sm inputs s2).1 := by
  refine runAnalyzes_nlp_only lg sm inputs s1 s2 ?_
  rw [startup_nlp env1 lg sm fs1 s1 h1, startup_nlp env2 lg sm fs2 s2 h2, hlazy]

/-- The stub document from the spec's concrete scenario. -/
def stubDoc : Doc :=
  [⟨"猫", "NOUN", "猫", 2⟩, ⟨"が", "ADP", "が", 0⟩,
   ⟨"好き", "ADJ", "好き", 3⟩, ⟨"だ", "AUX", "だ", 3⟩]

/-- A stub engine returning `stubDoc` for every text; its batch path
maps the single-text path over the inputs. -/
def stubEngine : Engine := ⟨fun _ => stubDoc, fun ts => ts.map (fun _ => stubDoc)⟩

/-- State after import of the module with `NLP_CACHE="1"`, `NLP_LAZY`
unset, the stub engines and an empty filesystem. -/
def stubS0 : St :=
  ⟨some stubEngine, some stubEngine, true, [".nlp_cache/"], 1, 0, 0⟩

/-- State after import with both `NLP_CACHE` and `NLP_LAZY` unset. -/
def stubS0nc : St := ⟨some stubEngine, some stubEngine, false, [], 1, 0, 0⟩

theorem analyze_cache_irrelevant_witness :
    (runAnalyzes stubEngine stubEngine
        [PyInput.str "猫が好きだ", PyInput.str "猫が好きだ"] stubS0).1
      = (runAnalyzes stubEngine stubEngine
        [PyInput.str "猫が好きだ", PyInput.str "猫が好きだ"] stubS0nc).1 :=
  analyze_cache_irrelevant ⟨some "1", none⟩ ⟨none, none⟩ stubEngine stubEngine
    [] [] [PyInput.str "猫が好きだ", PyInput.str "猫が好きだ"] stubS0 stubS0nc
    rfl rfl rfl

/-! ### C2: number of engine invocations under the cache -/

/-- C2 counterexample: with the cache enabled (`NLP_CACHE="1"`) and a
fresh (empty) filesystem, two successive `analyze` calls on the same
text invoke the underlying engine twice, not once — `analyze` never
consults the cache. -/
theorem analyze_twice_two_engine_calls :
    (startup ⟨some "1", none⟩ stubEngine stubEngine []).map
        (fun s0 => ((runAnalyzes stubEngine stubEngine
          [PyInput.str "猫が好きだ", PyInput.str "猫が好きだ"] s0).2).ncalls)
      = .ok 2 ∧ (2 : Nat) ≠ 1 :=
  ⟨rfl, by decide⟩

/-- C2 amended: each `analyze` call invokes the underlying engine
exactly once — the cache is never read or written, so `n` successive
calls (same text or not) perform exactly `n` engine invocations, and
the filesystem and cache flag are left untouched. -/
theorem analyze_engine_call_per_call (lg sm : Engine)
    (inputs : List PyInput) (s : St) :
    ((runAnalyzes lg sm inputs s).2).ncalls = s.ncalls + inputs.length ∧
    ((runAnalyzes lg sm inputs s).2).dirs = s.dirs ∧
    ((runAnalyzes lg sm inputs s).2).cacheEnabled = s.cacheEnabled := by
  induction inputs generalizing s with
  | nil => simp [runAnalyzes]
  | cons d ds ih =>
      rcases ih (analyze lg sm d s).2 with ⟨hn, hd, hc⟩
      rw [runAnalyzes_cons]
      refine ⟨?_, ?_, ?_⟩
      · show ((runAnalyzes lg sm ds (analyze lg sm d s).2).2).ncalls = _
        rw [hn, analyze_snd_ncalls, List.length_cons]; omega
      · show ((runAnalyzes lg sm ds (analyze lg sm d s).2).2).dirs = _
        rw [hd, analyze_snd_dirs]
      · show ((runAnalyzes lg sm ds (analyze lg sm d s).2).2).cacheEnabled = _
        rw [hc, analyze_snd_cacheEnabled]

/-! ### C3: dependency-head indices are valid token indices -/

/-- Validity of a normalized result: every dependency-head index is a
0-based index into the result's own token sequence. -/
def ResultOK (r : AnalysisResult) : Prop := ∀ i ∈ r.2.2.2, i < r.1.length

/-- Validity of an `analyze` return value, single or batch. -/
def AOut.OK : AOut → Prop
  | .one r => ResultOK r
  | .many rs => ∀ r ∈ rs, ResultOK r

theorem postprocess_ResultOK (d : Doc) (h : d.WF) :
    ResultOK (postprocess d) := by
  intro i hi
  simp [postprocess] at hi ⊢
  rcases hi with ⟨t, ht, rfl⟩
  exact h t ht

/-- C3: every dependency-head index `deps[i]` of a result produced by
`analyze` is an integer in `[0, token_count)` for that result's own
token sequence, provided the underlying spaCy engine satisfies its
head-in-same-doc invariant. -/
theorem analyze_deps_in_range (lg sm : Engine) (docs : PyInput) (s : St)
    (hlg : lg.WF) (hs : ∀ e, s.nlp = some e → e.WF) :
    ∀ out, (analyze lg sm docs s).1 = .ok out → out.OK := by
  have he : (s.nlp.getD lg).WF := by
    cases hn : s.nlp with
    | none => simpa using hlg
    | some e => simpa using hs e hn
  intro out hout
  rw [analyze_eq] at hout
  cases docs with
  | str d =>
      simp at hout
      subst hout
      exact postprocess_ResultOK _ (he.1 d)
  | strs ds =>
      simp at hout
      subst hout
      intro r hr
      simp at hr
      rcases hr with ⟨doc, hdoc, rfl⟩
      exact postprocess_ResultOK doc (he.2 ds doc hdoc)

theorem stubDoc_WF : stubDoc.WF := by decide

theorem stubEngine_WF : stubEngine.WF := by
  constructor
  · intro _; exact stubDoc_WF
  · intro ts d hd
    simp [stubEngine] at hd
    rcases hd with ⟨a, -, rfl⟩
    exact stubDoc_WF

/-- State after import with `NLP_CACHE` unset and `NLP_LAZY="1"`. -/
def lazyS0 : St := ⟨none, none, false, [], 0, 0, 0⟩

theorem analyze_deps_in_range_witness :
    AOut.OK (AOut.one (postprocess stubDoc)) :=
  analyze_deps_in_range stubEngine stubEngine (PyInput.str "猫が好きだ")
    lazyS0 stubEngine_WF (fun _ he => nomatch he)
    (AOut.one (postprocess stubDoc)) rfl

/-! ### C4: lazy vs eager load timing -/

/-- C4: with `NLP_LAZY` truthy, the engine load function has not run
after module import (`loadCount = 0`) and has run exactly once after
the first `analyze` or `tokenize` call; with `NLP_LAZY` falsy, it has
already run once at import time, before any call can be made. -/
theorem lazy_vs_eager_load (env : Env) (lg sm : Engine) (fs : FS) (s0 : St)
    (h : startup env lg sm fs = .ok s0) :
    (pybool env.nlp_lazy = true →
        s0.loadCount = 0 ∧
        (∀ d, ((analyze lg sm d s0).2).loadCount = 1) ∧
        (∀ d, ((tokenize lg sm d s0).2).loadCount = 1)) ∧
    (pybool env.nlp_lazy = false → s0.loadCount = 1) := by
  rcases startup_fields env lg sm fs s0 h with ⟨h1, h2, -, -, h5, -, -⟩
  constructor
  · intro hl
    rw [hl] at h1 h2 h5
    simp at h1 h2 h5
    refine ⟨h5, fun d => ?_, fun d => ?_⟩
    · rw [analyze_snd_loadCount, h1, h5]; simp
    · rw [tokenize_snd_loadCount, h2, h5]; simp
  · intro hl
    rw [hl] at h5
    simpa using h5

theorem lazy_vs_eager_load_witness :
    lazyS0.loadCount = 0 ∧
    ((analyze stubEngine stubEngine (PyInput.str "a") lazyS0).2).loadCount = 1 ∧
    ((tokenize stubEngine stubEngine (PyInput.str "a") lazyS0).2).loadCount = 1 :=
  have h := lazy_vs_eager_load ⟨none, some "1"⟩ stubEngine stubEngine []
    lazyS0 rfl
  have h2 := h.1 rfl
  ⟨h2.1, h2.2.1 (PyInput.str "a"), h2.2.2 (PyInput.str "a")⟩

/-! ### C5: the model is loaded at most once per process -/

/-- Invariant tying the engine globals to the load counter: either both
engines are loaded and `load_model` has run at most once, or neither is
loaded and it has never run. -/
def LoadInv (s : St) : Prop :=
  (s.nlp.isSome ∧ s.nlp_small.isSome ∧ s.loadCount ≤ 1) ∨
  (s.nlp = none ∧ s.nlp_small = none ∧ s.loadCount = 0)

theorem step_LoadInv (lg sm : Engine) (s : St) (op : Op) (h : LoadInv s) :
    LoadInv (step lg sm s op) := by
  cases op with
  | an d =>
      show LoadInv (analyze lg sm d s).2
      rcases h with ⟨h1, h2, h3⟩ | ⟨h1, h2, h3⟩
      · rcases Option.isSome_iff_exists.mp h1 with ⟨e, he⟩
        left
        refine ⟨by rw [analyze_snd_nlp]; simp, ?_, ?_⟩
        · rw [analyze_snd_nlp_small, he]; simpa using h2
        · rw [analyze_snd_loadCount, he]; simpa using h3
      · left
        refine ⟨by rw [analyze_snd_nlp]; simp, ?_, ?_⟩
        · rw [analyze_snd_nlp_small, h1]; simp
        · rw [analyze_snd_loadCount, h1, h3]; simp
  | tok d =>
      show LoadInv (tokenize lg sm d s).2
      rcases h with ⟨h1, h2, h3⟩ | ⟨h1, h2, h3⟩
      · rcases Option.isSome_iff_exists.mp h2 with ⟨e, he⟩
        left
        refine ⟨?_, by rw [tokenize_snd_nlp_small]; simp, ?_⟩
        · rw [tokenize_snd_nlp, he]; simpa using h1
        · rw [tokenize_snd_loadCount, he]; simpa using h3
      · left
        refine ⟨?_, by rw [tokenize_snd_nlp_small]; simp, ?_⟩
        · rw [tokenize_snd_nlp, h2]; simp
        · rw [tokenize_snd_loadCount, h2, h3]; simp

theorem run_LoadInv (lg sm : Engine) (ops : List Op) :
    ∀ s, LoadInv s → LoadInv (run lg sm ops s) := by
  induction ops with
  | nil => intro s h; exact h
  | cons op ops ih =>
      intro s h
      show LoadInv (run lg sm ops (step lg sm s op))
      exact ih _ (step_LoadInv lg sm s op h)

theorem startup_LoadInv (env : Env) (lg sm : Engine) (fs : FS) (s0 : St)
    (h : startup env lg sm fs = .ok s0) : LoadInv s0 := by
  rcases startup_fields env lg sm fs s0 h with ⟨h1, h2, -, -, h5, -, -⟩
  by_cases hl : pybool env.nlp_lazy = true
  · rw [hl] at h1 h2 h5; simp at h1 h2 h5
    right; exact ⟨h1, h2, h5⟩
  · rw [Bool.not_eq_true] at hl
    rw [hl] at h1 h2 h5; simp at h1 h2 h5
    left; exact ⟨by simp [h1], by simp [h2], by omega⟩

/-- C5: across any sequence of `analyze` and `tokenize` calls after
module import, in lazy as well as eager mode, `load_model` runs at most
once — once the engines are assigned, no later call reloads them. -/
theorem load_at_most_once (env : Env) (lg sm : Engine) (fs : FS) (s0 : St)
    (ops : List Op) (h : startup env lg sm fs = .ok s0) :
    (run lg sm ops s0).loadCount ≤ 1 := by
  rcases run_LoadInv lg sm ops s0 (startup_LoadInv env lg sm fs s0 h) with
    ⟨-, -, h3⟩ | ⟨-, -, h3⟩
  · exact h3
  · omega

theorem load_at_most_once_witness :
    (run stubEngine stubEngine
      [Op.an (PyInput.str "猫が好きだ"), Op.tok (PyInput.str "猫が好きだ"),
       Op.an (PyInput.strs ["a", "b"]), Op.tok (PyInput.str "c")]
      lazyS0).loadCount ≤ 1 :=
  load_at_most_once ⟨none, some "1"⟩ stubEngine stubEngine [] lazyS0
    [Op.an (PyInput.str "猫が好きだ"), Op.tok (PyInput.str "猫が好きだ"),
     Op.an (PyInput.strs ["a", "b"]), Op.tok (PyInput.str "c")] rfl

/-! ### C6: single-text analyze returns four parallel sequences -/

/-- C6: on a single string, `analyze` returns the flattening of the
engine's document into four parallel sequences — texts, POS tags,
lemmas, dependency-head indices — all of the same length (one element
per token), with `deps` holding each token's 0-based head index. -/
theorem analyze_single_parallel (lg sm : Engine) (d : String) (s : St)
    (r : AnalysisResult) (s2 : St)
    (h : analyze lg sm (.str d) s = (.ok (.one r), s2)) :
    ∃ doc : Doc,
      (s.nlp = none → doc = lg.proc d) ∧
      (∀ e, s.nlp = some e → doc = e.proc d) ∧
      r = (doc.map Token.text, doc.map Token.pos_, doc.map Token.lemma_,
           doc.map Token.head_i) ∧
      r.2.1.length = r.1.length ∧ r.2.2.1.length = r.1.length ∧
      r.2.2.2.length = r.1.length := by
  rw [analyze_eq] at h
  have h1 : AOut.one (postprocess ((s.nlp.getD lg).proc d)) = AOut.one r := by
    have := congrArg Prod.fst h
    simpa using this
  have h2 : postprocess ((s.nlp.getD lg).proc d) = r := by
    injection h1
  refine ⟨(s.nlp.getD lg).proc d, ?_, ?_, ?_, ?_, ?_, ?_⟩
  · intro hn; rw [hn]; rfl
  · intro e hn; rw [hn]; rfl
  · rw [← h2]; rfl
  · rw [← h2]; simp [postprocess]
  · rw [← h2]; simp [postprocess]
  · rw [← h2]; simp [postprocess]

theorem analyze_single_parallel_witness :
    ∃ doc : Doc,
      (lazyS0.nlp = none → doc = stubEngine.proc "猫が好きだ") ∧
      (∀ e, lazyS0.nlp = some e → doc = e.proc "猫が好きだ") ∧
      postprocess stubDoc =
        (doc.map Token.text, doc.map Token.pos_, doc.map Token.lemma_,
         doc.map Token.head_i) ∧
      (postprocess stubDoc).2.1.length = (postprocess stubDoc).1.length ∧
      (postprocess stubDoc).2.2.1.length = (postprocess stubDoc).1.length ∧
      (postprocess stubDoc).2.2.2.length = (postprocess stubDoc).1.length :=
  analyze_single_parallel stubEngine stubEngine "猫が好きだ" lazyS0
    (postprocess stubDoc) (bumpN (ensureNlp stubEngine stubEngine lazyS0)) rfl

/-! ### C7: batch analyze returns one result per input, in order -/

/-- C7: on a list of texts, provided the engine's batch path returns
one document per input in order (the collaborator contract for
`nlp.pipe`), `analyze` returns exactly one `AnalysisResult` per input
text, in input order, each the normalization of the engine's output for
the corresponding text. -/
theorem analyze_batch_per_input (lg sm : Engine) (ts : List String) (s : St)
    (rs : List AnalysisResult) (s2 : St)
    (hlg : lg.pipeDocs ts = ts.map lg.proc)
    (hs : ∀ e, s.nlp = some e → e.pipeDocs ts = ts.map e.proc)
    (h : analyze lg sm (.strs ts) s = (.ok (.many rs), s2)) :
    rs.length = ts.length ∧
    rs = ts.map (fun t => postprocess ((s.nlp.getD lg).proc t)) := by
  rw [analyze_eq] at h
  have h1 : AOut.many (((s.nlp.getD lg).pipeDocs ts).map postprocess)
      = AOut.many rs := by
    have := congrArg Prod.fst h
    simpa using this
  have h2 : ((s.nlp.getD lg).pipeDocs ts).map postprocess = rs := by
    injection h1
  have hp : (s.nlp.getD lg).pipeDocs ts = ts.map (s.nlp.getD lg).proc := by
    cases hn : s.nlp with
    | none => simpa using hlg
    | some e => simpa using hs e hn
  rw [← h2, hp]
  constructor
  · simp
  · rw [List.map_map]; rfl

theorem analyze_batch_per_input_witness :
    ([postprocess stubDoc, postprocess stubDoc] : List AnalysisResult).length
        = (["a", "b"] : List String).length ∧
    ([postprocess stubDoc, postprocess stubDoc] : List AnalysisResult)
        = (["a", "b"] : List String).map
            (fun t => postprocess ((lazyS0.nlp.getD stubEngine).proc t)) :=
  analyze_batch_per_input stubEngine stubEngine ["a", "b"] lazyS0
    [postprocess stubDoc, postprocess stubDoc]
    (bumpN (ensureNlp stubEngine stubEngine lazyS0))
    rfl (fun _ he => nomatch he) rfl

/-! ### C8: cache directory creation at import -/

/-- C8: when the cache is enabled, importing the module creates
`.nlp_cache/` if absent and succeeds without error if it already exists
(in which case the filesystem is unchanged); when the cache is disabled,
no directory is created — the filesystem is untouched. -/
theorem cache_dir_creation (env : Env) (lg sm : Engine) (fs : FS) :
    ∃ s0, startup env lg sm fs = .ok s0 ∧ s0.dirs = startupDirs env fs ∧
      (CACHE env = true → ".nlp_cache/" ∈ s0.dirs ∧
        (".nlp_cache/" ∈ fs → s0.dirs = fs)) ∧
      (CACHE env = false → s0.dirs = fs) := by
  have hdirs : (if pybool env.nlp_lazy then
       (⟨none, none, CACHE env, startupDirs env fs, 0, 0, 0⟩ : St)
     else ⟨some lg, some sm, CACHE env, startupDirs env fs, 1, 0, 0⟩).dirs
      = startupDirs env fs := by
    by_cases hl : pybool env.nlp_lazy = true <;> simp [hl]
  refine ⟨_, startup_eq env lg sm fs, hdirs, ?_, ?_⟩
  · intro hc
    rw [hdirs]
    unfold startupDirs
    rw [hc]
    refine ⟨?_, fun hmem => ?_⟩
    · by_cases hmem2 : ".nlp_cache/" ∈ fs
      · rw [if_pos hmem2]; exact hmem2
      · rw [if_neg hmem2]; exact List.mem_cons_self _ _
    · simp [hmem]
  · intro hc
    rw [hdirs]
    unfold startupDirs
    rw [hc]
    simp

theorem cache_dir_creation_witness :
    ∃ s0, startup ⟨some "1", none⟩ stubEngine stubEngine [] = .ok s0 ∧
      s0.dirs = startupDirs ⟨some "1", none⟩ [] ∧
      (CACHE ⟨some "1", none⟩ = true → ".nlp_cache/" ∈ s0.dirs ∧
        (".nlp_cache/" ∈ ([] : FS) → s0.dirs = [])) ∧
      (CACHE ⟨some "1", none⟩ = false → s0.dirs = []) :=
  cache_dir_creation ⟨some "1", none⟩ stubEngine stubEngine []

/-! ### C9: the two engine handles are both loaded or both unloaded -/

/-- Both-or-neither invariant on the two engine globals. -/
def BothOrNeither (s : St) : Prop :=
  (s.nlp.isSome ∧ s.nlp_small.isSome) ∨ (s.nlp = none ∧ s.nlp_small = none)

/-- C9: a single `load_model` call assigns both engine handles, so the
two globals are always either both loaded or both unloaded: import
establishes the invariant, every `analyze`/`tokenize` call preserves it,
and the first `tokenize` on an unloaded state also loads the full
engine, while the first `analyze` also loads the small one. -/
theorem engines_both_or_neither (lg sm : Engine) :
    (∀ env fs s0, startup env lg sm fs = .ok s0 → BothOrNeither s0) ∧
    (∀ s op, BothOrNeither s → BothOrNeither (step lg sm s op)) ∧
    (∀ s d, s.nlp_small = none → ((tokenize lg sm d s).2).nlp = some lg) ∧
    (∀ s d, s.nlp = none → ((analyze lg sm d s).2).nlp_small = some sm) := by
  refine ⟨?_, ?_, ?_, ?_⟩
  · intro env fs s0 h
    rcases startup_fields env lg sm fs s0 h with ⟨h1, h2, -, -, -, -, -⟩
    by_cases hl : pybool env.nlp_lazy = true
    · right; rw [hl] at h1 h2; simp at h1 h2; exact ⟨h1, h2⟩
    · rw [Bool.not_eq_true] at hl
      rw [hl] at h1 h2; simp at h1 h2
      left; exact ⟨by simp [h1], by simp [h2]⟩
  · intro s op h
    cases op with
    | an d =>
        show BothOrNeither (analyze lg sm d s).2
        left
        refine ⟨by rw [analyze_snd_nlp]; simp, ?_⟩
        rw [analyze_snd_nlp_small]
        rcases h with ⟨h1, h2⟩ | ⟨h1, h2⟩
        · rcases Option.isSome_iff_exists.mp h1 with ⟨e, he⟩
          rw [he]; simpa using h2
        · rw [h1]; simp
    | tok d =>
        show BothOrNeither (tokenize lg sm d s).2
        left
        refine ⟨?_, by rw [tokenize_snd_nlp_small]; simp⟩
        rw [tokenize_snd_nlp]
        rcases h with ⟨h1, h2⟩ | ⟨h1, h2⟩
        · rcases Option.isSome_iff_exists.mp h2 with ⟨e, he⟩
          rw [he]; simpa using h1
        · rw [h2]; simp
  · intro s d hn
    rw [tokenize_snd_nlp, hn]; simp
  · intro s d hn
    rw [analyze_snd_nlp_small, hn]; simp

theorem engines_both_or_neither_witness :
    BothOrNeither lazyS0 ∧
    BothOrNeither (step stubEngine stubEngine lazyS0
      (Op.tok (PyInput.str "猫が好きだ"))) ∧
    ((tokenize stubEngine stubEngine (PyInput.str "猫が好きだ")
        lazyS0).2).nlp = some stubEngine ∧
    ((analyze stubEngine stubEngine (PyInput.str "猫が好きだ")
        lazyS0).2).nlp_small = some stubEngine :=
  have h := engines_both_or_neither stubEngine stubEngine
  have h0 : BothOrNeither lazyS0 := h.1 ⟨none, some "1"⟩ [] lazyS0 rfl
  ⟨h0, h.2.1 lazyS0 (Op.tok (PyInput.str "猫が好きだ")) h0,
   h.2.2.1 lazyS0 (PyInput.str "猫が好きだ") rfl,
   h.2.2.2 lazyS0 (PyInput.str "猫が好きだ") rfl⟩

/-! ### C10: configuration flags are raw-string truthiness -/

/-- C10: the configuration flags are the Python truthiness of the raw
environment strings: any non-empty `NLP_CACHE` value — including "0"
and "false" — enables the cache, any non-empty `NLP_LAZY` value selects
lazy mode (no load at import), and an unset or empty-string variable
yields the default: cache off, eager load at import. -/
theorem env_flags_truthiness (v : String) (hv : v ≠ "") (lg sm : Engine)
    (fs : FS) :
    (∀ lz, CACHE ⟨some v, lz⟩ = true) ∧
    (∀ lz, CACHE ⟨none, lz⟩ = false) ∧
    (∀ lz, CACHE ⟨some "", lz⟩ = false) ∧
    (∀ c s0, startup ⟨c, some v⟩ lg sm fs = .ok s0 →
        s0.loadCount = 0 ∧ s0.nlp = none) ∧
    (∀ c s0, startup ⟨c, none⟩ lg sm fs = .ok s0 → s0.loadCount = 1) ∧
    (∀ c s0, startup ⟨c, some ""⟩ lg sm fs = .ok s0 → s0.loadCount = 1) := by
  have hveb : v.isEmpty = false := by
    cases h : v.isEmpty
    · rfl
    · exact absurd ((String.isEmpty_iff v).mp h) hv
  refine ⟨?_, ?_, ?_, ?_, ?_, ?_⟩
  · intro lz; simp [CACHE, pybool, hveb]
  · intro lz; simp [CACHE, pybool]
  · intro lz; simp [CACHE, pybool, String.isEmpty]
  · intro c s0 h
    rcases startup_fields ⟨c, some v⟩ lg sm fs s0 h with ⟨h1, -, -, -, h5, -, -⟩
    have hl : pybool (Env.mk c (some v)).nlp_lazy = true := by
      simp [pybool, hveb]
    rw [hl] at h1 h5; simp at h1 h5
    exact ⟨h5, h1⟩
  · intro c s0 h
    rcases startup_fields ⟨c, none⟩ lg sm fs s0 h with ⟨-, -, -, -, h5, -, -⟩
    have hl : pybool (Env.mk c none).nlp_lazy = false := by
      simp [pybool]
    rw [hl] at h5; simpa using h5
  · intro c s0 h
    rcases startup_fields ⟨c, some ""⟩ lg sm fs s0 h with ⟨-, -, -, -, h5, -, -⟩
    have hl : pybool (Env.mk c (some "")).nlp_lazy = false := by
      simp [pybool, String.isEmpty]
    rw [hl] at h5; simpa using h5

theorem env_flags_truthiness_witness :
    CACHE ⟨some "0", none⟩ = true ∧ CACHE ⟨some "false", none⟩ = true ∧
    CACHE ⟨none, none⟩ = false ∧ CACHE ⟨some "", none⟩ = false ∧
    lazyS0.loadCount = 0 :=
  have h0 := env_flags_truthiness "0" (by decide) stubEngine stubEngine []
  have hf := env_flags_truthiness "false" (by decide) stubEngine stubEngine []
  ⟨h0.1 none, hf.1 none, h0.2.1 none, h0.2.2.1 none,
   (h0.2.2.2.1 none lazyS0 rfl).1⟩

end Omoide
